import Mathlib

/-!
Shallow embedding of the booking backend (`src/main.py`) of the
"Barber Shop Morocco API".

Python dictionaries are modelled as insertion-ordered association lists
with unique keys (`Doc`); dictionary write (`d[k] = v`) is `dictSet`,
which overwrites in place when the key exists and appends otherwise,
exactly as a Python dict does.  Python runtime values appearing in the
booking pipeline are modelled by the inductive type `Value`
(strings, ints, bools, `None`, `datetime`, Mongo `ObjectId`).

External collaborators that are not part of the repository (the
`database` module's `create_document` / `get_documents` / `db`, and the
`schemas` module's canonical `Booking`) are modelled as explicit
parameters: a handler that in Python performs late imports and catches
every exception becomes a total Lean function over a datatype
enumerating each collaborator outcome, returning `Except` for the
HTTP-error path.
-/

namespace Barber

/-- Naive calendar timestamp, standing in for Python `datetime.datetime`
(microseconds omitted; no claim depends on them). -/
structure Datetime where
  year : Nat
  month : Nat
  day : Nat
  hour : Nat
  minute : Nat
  second : Nat
deriving DecidableEq, Repr

/-- Left-pad the decimal rendering of `n` with zeros to width `w`,
as Python `%02d` / `%04d` formatting does. -/
def zpad (w : Nat) (n : Nat) : String :=
  let s := toString n
  String.mk (List.replicate (w - s.length) '0') ++ s

/-- Python `datetime.isoformat()`: `YYYY-MM-DDTHH:MM:SS`. -/
def Datetime.isoformat (d : Datetime) : String :=
  zpad 4 d.year ++ "-" ++ zpad 2 d.month ++ "-" ++ zpad 2 d.day ++ "T" ++
    zpad 2 d.hour ++ ":" ++ zpad 2 d.minute ++ ":" ++ zpad 2 d.second

/-- Python `str(datetime)`: `YYYY-MM-DD HH:MM:SS` (space separator). -/
def Datetime.pystrDt (d : Datetime) : String :=
  zpad 4 d.year ++ "-" ++ zpad 2 d.month ++ "-" ++ zpad 2 d.day ++ " " ++
    zpad 2 d.hour ++ ":" ++ zpad 2 d.minute ++ ":" ++ zpad 2 d.second

/-- Python runtime values that can appear in a stored booking document. -/
inductive Value where
  | vStr (s : String)
  | vInt (n : Int)
  | vBool (b : Bool)
  | vNone
  | vDatetime (dt : Datetime)
  | vObjectId (hex : String)
deriving DecidableEq, Repr

/-- Python `str(v)` on a `Value` (`str` of an `ObjectId` is its hex form). -/
def pystr : Value → String
  | .vStr s => s
  | .vInt n => toString n
  | .vBool true => "True"
  | .vBool false => "False"
  | .vNone => "None"
  | .vDatetime dt => dt.pystrDt
  | .vObjectId h => h

/-- A Python dict: insertion-ordered association list (keys unique in any
dict actually produced by Python). -/
abbrev Doc := List (String × Value)

/-- The key list of a document, in insertion order. -/
def keys (d : Doc) : List String := d.map Prod.fst

/-- Python `d.get(k)` / `d[k]`: first (unique) binding of `k`. -/
def dictGet : Doc → String → Option Value
  | [], _ => none
  | (k', v) :: rest, k => if k' = k then some v else dictGet rest k

/-- Python `d[k] = v`: overwrite in place if `k` is present, else append. -/
def dictSet (d : Doc) (k : String) (v : Value) : Doc :=
  if k ∈ keys d then d.map (fun p => if p.1 = k then (k, v) else p)
  else d ++ [(k, v)]

/-- One iteration of the loop body of `_serialize_doc` (src/main.py
lines 63-69): writing the converted binding for `kv` into `out`. -/
def serializeStep (out : Doc) (kv : String × Value) : Doc :=
  if kv.1 = "_id" then dictSet out "id" (Value.vStr (pystr kv.2))
  else
    match kv.2 with
    | Value.vDatetime dt => dictSet out kv.1 (Value.vStr dt.isoformat)
    | v => dictSet out kv.1 v

/-- `_serialize_doc` (src/main.py lines 60-70): fold the loop body over
the items of the input dict, starting from the empty dict. -/
def serialize_doc (doc : Doc) : Doc :=
  doc.foldl serializeStep []

/-- Specification-side description of what serialization does to a single
binding: `_id` is renamed to `id` with its value stringified, a datetime
value is rendered ISO-8601 under its original key, anything else passes
through unchanged.  Used to compare `serialize_doc` against the spec's
wording. -/
def serializeEntrySpec (kv : String × Value) : String × Value :=
  if kv.1 = "_id" then ("id", Value.vStr (pystr kv.2))
  else
    match kv.2 with
    | Value.vDatetime dt => (kv.1, Value.vStr dt.isoformat)
    | v => (kv.1, v)

/-- Lexicographic weak order on character lists by code point: exactly
how Python compares two strings. -/
def charListLe : List Char → List Char → Bool
  | [], _ => true
  | _ :: _, [] => false
  | a :: as, b :: bs =>
    if a.toNat < b.toNat then true
    else if b.toNat < a.toNat then false
    else charListLe as bs

/-- Python `a <= b` on strings (lexicographic by code point). -/
def strLeB (a b : String) : Bool := charListLe a.data b.data

/-- The sort key `x.get("created_at", "")` of `list_bookings`
(src/main.py line 95).  In Python the raw value is compared; serialized
store documents carry `created_at` as an ISO string, so the model takes
the string (claims about sorting are stated under the hypothesis that
every present `created_at` value is a string — on mixed value types
Python's comparison itself would raise `TypeError`). -/
def sortKey (x : Doc) : String :=
  match dictGet x "created_at" with
  | some (Value.vStr s) => s
  | some _ => ""
  | none => ""

/-- The descending weak order used by `items.sort(key=..., reverse=True)`:
`a` may come before `b` when `sortKey b <= sortKey a`. -/
def descBefore (a b : Doc) : Prop := strLeB (sortKey b) (sortKey a) = true

instance : DecidableRel descBefore := fun a b =>
  instDecidableEqBool (strLeB (sortKey b) (sortKey a)) true

/-- Python `items.sort(key=..., reverse=True)`: a stable descending sort
by `sortKey`, modelled by stable insertion sort under the descending
weak order (CPython's Timsort is stable, and any two stable sorts under
the same total preorder agree). -/
def pySortDesc (items : List Doc) : List Doc :=
  items.insertionSort descBefore

/-- Domain restriction under which the sort model is faithful: after
serialization the `created_at` value, when present, is a string (a
serialized store timestamp always is; on mixed value types Python's
comparison would raise `TypeError` instead of ordering). -/
def createdAtStringlyB (d : Doc) : Bool :=
  match dictGet d "created_at" with
  | none => true
  | some (Value.vStr _) => true
  | some _ => false

/-- The `HTTPException(status_code, detail)` carried by the error path. -/
structure HTTPErr where
  status : Nat
  detail : String
deriving DecidableEq, Repr

/-- Success body of `POST /api/bookings`. -/
structure CreateResp where
  status : String
  id : String
deriving DecidableEq, Repr

/-- Success body of `GET /api/bookings`. -/
structure ListResp where
  items : List Doc
  count : Nat
deriving DecidableEq, Repr

/-- The intake model `BookingIn` (src/main.py lines 50-57): seven fields,
three required strings and four optional strings. -/
structure BookingIn where
  name : String
  phone : String
  email : Option String
  service : String
  preferred_date : Option String
  preferred_time : Option String
  notes : Option String
deriving DecidableEq, Repr

/-- Render an optional string as the Python value it dumps to. -/
def optV : Option String → Value
  | some s => Value.vStr s
  | none => Value.vNone

/-- `payload.model_dump()`: the dict of exactly the seven declared
`BookingIn` fields. -/
def model_dump (p : BookingIn) : Doc :=
  [("name", Value.vStr p.name), ("phone", Value.vStr p.phone),
   ("email", optV p.email), ("service", Value.vStr p.service),
   ("preferred_date", optV p.preferred_date),
   ("preferred_time", optV p.preferred_time), ("notes", optV p.notes)]

/-- Read a required string field, as pydantic validation of a `str` field
does (missing or non-string fails). -/
def getStr (d : Doc) (k : String) : Except String String :=
  match dictGet d k with
  | some (Value.vStr s) => .ok s
  | some _ => .error (k ++ ": input should be a valid string")
  | none => .error (k ++ ": field required")

/-- Read an optional string field (`str | None = None`): absent or null
gives `none`, a string gives `some`, anything else fails. -/
def getOptStr (d : Doc) (k : String) : Except String (Option String) :=
  match dictGet d k with
  | none => .ok none
  | some Value.vNone => .ok none
  | some (Value.vStr s) => .ok (some s)
  | some _ => .error (k ++ ": input should be a valid string")

/-- Pydantic parsing of the request body into `BookingIn`: reads the
seven declared fields and ignores every other key of the inbound JSON
object (pydantic's default behaviour for unknown fields). -/
def parseBookingIn (raw : Doc) : Except String BookingIn := do
  let name ← getStr raw "name"
  let phone ← getStr raw "phone"
  let email ← getOptStr raw "email"
  let service ← getStr raw "service"
  let preferred_date ← getOptStr raw "preferred_date"
  let preferred_time ← getOptStr raw "preferred_time"
  let notes ← getOptStr raw "notes"
  .ok ⟨name, phone, email, service, preferred_date, preferred_time, notes⟩

/-- Modelled from the spec: the canonical `schemas.Booking` record (the
`schemas` module is not part of the repository).  Per §3 of the spec it
carries the intake fields; its extra validation rules are the
collaborator's responsibility and stay abstract (validators are passed
as parameters below). -/
structure Booking where
  name : String
  phone : String
  email : Option String
  service : String
  preferred_date : Option String
  preferred_time : Option String
  notes : Option String
deriving DecidableEq, Repr

/-- Modelled from the spec: the document the store persists for a booking
and later returns from `get_documents` — the booking's fields plus the
store-assigned `_id` and the persistence-time `created_at` timestamp
(spec §3: identifier assigned by the store on insert; `created_at` set
at persistence time). -/
def bookingToDoc (b : Booking) (oid : String) (ts : Datetime) : Doc :=
  [("_id", Value.vObjectId oid), ("name", Value.vStr b.name),
   ("phone", Value.vStr b.phone), ("email", optV b.email),
   ("service", Value.vStr b.service),
   ("preferred_date", optV b.preferred_date),
   ("preferred_time", optV b.preferred_time), ("notes", optV b.notes),
   ("created_at", Value.vDatetime ts)]

/-- `create_booking` (src/main.py lines 73-84).  `deps` models the late
imports of `database.create_document` and `schemas.Booking`: an import
failure, like any exception in the `try` body, is caught and re-raised
as `HTTPException(500, str(e))`.  On success the validator receives the
dumped payload, the insert receives the validated booking, and the
store-assigned identifier is returned. -/
def create_booking
    (deps : Except String ((Doc → Except String Booking) ×
                           (Booking → Except String String)))
    (payload : BookingIn) : Except HTTPErr CreateResp :=
  match deps with
  | .error e => .error ⟨500, e⟩
  | .ok (validateB, insert) =>
    match validateB (model_dump payload) with
    | .error e => .error ⟨500, e⟩
    | .ok b =>
      match insert b with
      | .error e => .error ⟨500, e⟩
      | .ok insertedId => .ok ⟨"ok", insertedId⟩

/-- `list_bookings` (src/main.py lines 87-98).  `readDocs` models
`get_documents("booking", dict(), limit=200)` (import plus query): on
failure the exception becomes `HTTPException(500, str(e))`; on success
each document is serialized and the list is sorted by `created_at`
descending (missing key defaulting to the empty string). -/
def list_bookings (readDocs : Except String (List Doc)) :
    Except HTTPErr ListResp :=
  match readDocs with
  | .error e => .error ⟨500, e⟩
  | .ok docs =>
    let items := pySortDesc (docs.map serialize_doc)
    .ok ⟨items, items.length⟩

/-- A live database handle as `test_database` observes it: possibly a
`name` attribute (`hasattr(db, 'name')`), and the outcome of calling
`list_collection_names()`. -/
structure DB where
  name : Option String
  collectionNames : Except String (List String)
deriving Repr

/-- Outcome of `from database import db` in `test_database`: the import
can fail with `ImportError` or another exception, or deliver a handle
that is `None` or a live `DB`. -/
inductive DbImport where
  | importErr (msg : String)
  | otherErr (msg : String)
  | available (db : Option DB)
deriving Repr

/-- Python `str(e)[:50]`. -/
def strTrunc50 (s : String) : String := s.take 50

/-- Response object of `GET /test`: the six keys of the `response` dict
built by `test_database`.  `database_url` / `database_name` start as
`None` and are assigned strings later, hence `Option String`. -/
structure TestResp where
  backend : String
  database : String
  database_url : Option String
  database_name : Option String
  connection_status : String
  collections : List String
deriving DecidableEq, Repr

/-- `test_database` (src/main.py lines 101-132).  `urlSet` / `nameSet`
model whether the `DATABASE_URL` / `DATABASE_NAME` environment variables
are set.  Every collaborator outcome is a case of `imp`; the function is
total: no case raises. -/
def test_database (imp : DbImport) (urlSet nameSet : Bool) : TestResp :=
  let r0 : TestResp :=
    ⟨"✅ Running", "❌ Not Available", none, none, "Not Connected", []⟩
  let r1 : TestResp :=
    match imp with
    | .importErr _ => { r0 with database := "❌ Database module not found" }
    | .otherErr e => { r0 with database := "❌ Error: " ++ strTrunc50 e }
    | .available none =>
      { r0 with database := "⚠️  Available but not initialized" }
    | .available (some db) =>
      let r2 := { r0 with
        database := "✅ Available",
        database_url := some (if urlSet then "✅ Set" else "❌ Not Set"),
        database_name :=
          some (match db.name with | some n => n | none => "✅ Connected"),
        connection_status := "Connected" }
      match db.collectionNames with
      | .ok cols =>
        { r2 with collections := cols.take 10,
                  database := "✅ Connected & Working" }
      | .error e =>
        { r2 with database := "⚠️  Connected but Error: " ++ strTrunc50 e }
  { r1 with
    database_url := some (if urlSet then "✅ Set" else "❌ Not Set"),
    database_name := some (if nameSet then "✅ Set" else "❌ Not Set") }

/-- One entry of the services catalog. -/
structure Service where
  id : String
  name : String
  price : Nat
  duration : Nat
  desc : String
deriving DecidableEq, Repr

/-- `list_services` (src/main.py lines 26-33): the fixed catalog. -/
def list_services : List Service :=
  [⟨"cut", "Classic Cut", 120, 30, "Precision haircut tailored to your style."⟩,
   ⟨"beard", "Beard Trim", 80, 20, "Clean lines and shape with hot towel finish."⟩,
   ⟨"combo", "Cut + Beard", 180, 60, "Complete grooming session."⟩,
   ⟨"fade", "Skin Fade", 140, 45, "Sharp fade with detailed finish."⟩]

/-! ### Dictionary write lemmas -/

theorem keys_dictSet_of_mem {d : Doc} {k : String} (v : Value)
    (h : k ∈ keys d) : keys (dictSet d k v) = keys d := by
  simp only [dictSet, if_pos h]
  simp only [keys, List.map_map]
  refine List.map_congr_left (fun p _ => ?_)
  by_cases hp : p.1 = k <;> simp [hp]

theorem dictSet_of_not_mem {d : Doc} {k : String} (v : Value)
    (h : k ∉ keys d) : dictSet d k v = d ++ [(k, v)] := by
  simp only [dictSet, if_neg h]

theorem mem_keys_dictSet {d : Doc} {k : String} (v : Value) {s : String}
    (h : s ∈ keys d) : s ∈ keys (dictSet d k v) := by
  by_cases hk : k ∈ keys d
  · rw [keys_dictSet_of_mem v hk]; exact h
  · rw [dictSet_of_not_mem v hk]
    simp only [keys, List.map_append]
    exact List.mem_append_left _ h

theorem keys_dictSet_subset {d : Doc} {k : String} {v : Value} {s : String}
    (h : s ∈ keys (dictSet d k v)) : s ∈ keys d ∨ s = k := by
  by_cases hk : k ∈ keys d
  · rw [keys_dictSet_of_mem v hk] at h; exact Or.inl h
  · rw [dictSet_of_not_mem v hk] at h
    simp only [keys, List.map_append] at h
    rcases List.mem_append.mp h with h' | h'
    · exact Or.inl h'
    · simp only [List.map_cons, List.map_nil, List.mem_singleton] at h'
      exact Or.inr h'

theorem length_dictSet_le (d : Doc) (k : String) (v : Value) :
    (dictSet d k v).length ≤ d.length + 1 := by
  by_cases hk : k ∈ keys d
  · simp only [dictSet, if_pos hk, List.length_map]; omega
  · simp only [dictSet, if_neg hk, List.length_append, List.length_singleton]
    omega

theorem length_dictSet_of_mem {d : Doc} {k : String} (v : Value)
    (h : k ∈ keys d) : (dictSet d k v).length = d.length := by
  simp only [dictSet, if_pos h, List.length_map]

/-! ### The serialization loop -/

theorem serializeStep_eq (out : Doc) (kv : String × Value) :
    serializeStep out kv =
      dictSet out (serializeEntrySpec kv).1 (serializeEntrySpec kv).2 := by
  rcases kv with ⟨k, v⟩
  by_cases hk : k = "_id"
  · simp [serializeStep, serializeEntrySpec, hk]
  · cases v <;> simp [serializeStep, serializeEntrySpec, hk]

theorem serializeEntrySpec_fst (kv : String × Value) :
    (serializeEntrySpec kv).1 = if kv.1 = "_id" then "id" else kv.1 := by
  rcases kv with ⟨k, v⟩
  by_cases hk : k = "_id"
  · simp [serializeEntrySpec, hk]
  · cases v <;> simp [serializeEntrySpec, hk]

theorem serializeEntrySpec_fst_ne (kv : String × Value) :
    (serializeEntrySpec kv).1 ≠ "_id" := by
  rw [serializeEntrySpec_fst]
  by_cases hk : kv.1 = "_id"
  · rw [if_pos hk]; decide
  · rw [if_neg hk]; exact hk

theorem foldl_serializeStep_no_underscore_id (doc : Doc) :
    ∀ out : Doc, "_id" ∉ keys out →
      "_id" ∉ keys (doc.foldl serializeStep out) := by
  induction doc with
  | nil => intro out h; simpa using h
  | cons kv rest ih =>
    intro out h
    rw [List.foldl_cons]
    refine ih _ (fun hmem => ?_)
    rw [serializeStep_eq] at hmem
    rcases keys_dictSet_subset hmem with h' | h'
    · exact h h'
    · exact serializeEntrySpec_fst_ne kv h'.symm

theorem mem_keys_foldl_serializeStep (doc : Doc) :
    ∀ out : Doc, ∀ s, s ∈ keys out →
      s ∈ keys (doc.foldl serializeStep out) := by
  induction doc with
  | nil => intro out s h; simpa using h
  | cons kv rest ih =>
    intro out s h
    rw [List.foldl_cons, serializeStep_eq]
    exact ih _ s (mem_keys_dictSet _ h)

theorem length_foldl_serializeStep_le (doc : Doc) :
    ∀ out : Doc, (doc.foldl serializeStep out).length ≤
      out.length + doc.length := by
  induction doc with
  | nil => intro out; simp
  | cons kv rest ih =>
    intro out
    rw [List.foldl_cons]
    calc ((rest.foldl serializeStep (serializeStep out kv)).length)
        ≤ (serializeStep out kv).length + rest.length := ih _
      _ ≤ (out.length + 1) + rest.length := by
          have := length_dictSet_le out (serializeEntrySpec kv).1
            (serializeEntrySpec kv).2
          rw [serializeStep_eq]; omega
      _ = out.length + (kv :: rest).length := by
          simp only [List.length_cons]; omega

theorem length_foldl_serializeStep_lt (doc : Doc) :
    ∀ out : Doc, (∃ kv ∈ doc, (serializeEntrySpec kv).1 ∈ keys out) →
      (doc.foldl serializeStep out).length < out.length + doc.length := by
  induction doc with
  | nil => intro out h; simp at h
  | cons kv rest ih =>
    intro out h
    rw [List.foldl_cons]
    by_cases hk : (serializeEntrySpec kv).1 ∈ keys out
    · have hlen : (serializeStep out kv).length = out.length := by
        rw [serializeStep_eq]; exact length_dictSet_of_mem _ hk
      calc (rest.foldl serializeStep (serializeStep out kv)).length
          ≤ (serializeStep out kv).length + rest.length :=
            length_foldl_serializeStep_le rest _
        _ = out.length + rest.length := by rw [hlen]
        _ < out.length + (kv :: rest).length := by
            simp only [List.length_cons]; omega
    · rcases h with ⟨kv', hmem, hkey⟩
      rcases List.mem_cons.mp hmem with rfl | hmem'
      · exact absurd hkey hk
      · have hstep : (serializeEntrySpec kv').1 ∈ keys (serializeStep out kv) := by
          rw [serializeStep_eq]
          exact mem_keys_dictSet _ hkey
        have hlt := ih (serializeStep out kv) ⟨kv', hmem', hstep⟩
        have hle : (serializeStep out kv).length ≤ out.length + 1 := by
          rw [serializeStep_eq]; exact length_dictSet_le _ _ _
        calc (rest.foldl serializeStep (serializeStep out kv)).length
            < (serializeStep out kv).length + rest.length := hlt
          _ ≤ (out.length + 1) + rest.length := by omega
          _ = out.length + (kv :: rest).length := by
              simp only [List.length_cons]; omega

theorem foldl_serializeStep_fresh (doc : Doc) :
    ∀ out : Doc, (∀ kv ∈ doc, (serializeEntrySpec kv).1 ∉ keys out) →
      (doc.map (fun kv => (serializeEntrySpec kv).1)).Nodup →
      doc.foldl serializeStep out = out ++ doc.map serializeEntrySpec := by
  induction doc with
  | nil => intro out _ _; simp
  | cons kv rest ih =>
    intro out hfresh hnodup
    rw [List.foldl_cons, serializeStep_eq,
      dictSet_of_not_mem _ (hfresh kv (List.mem_cons_self kv rest))]
    simp only [List.map_cons, List.nodup_cons] at hnodup
    have hrest : ∀ kv' ∈ rest,
        (serializeEntrySpec kv').1 ∉ keys (out ++ [serializeEntrySpec kv]) := by
      intro kv' hm hmem
      simp only [keys, List.map_append, List.map_cons, List.map_nil,
        List.mem_append, List.mem_singleton] at hmem
      rcases hmem with h' | h'
      · exact hfresh kv' (List.mem_cons_of_mem kv hm) h'
      · refine hnodup.1 ?_
        rw [← h']
        exact List.mem_map_of_mem _ hm
  -- the appended singleton is the mapped head entry
    rw [ih _ hrest hnodup.2, List.append_assoc]
    rfl

/-- Shared characterization of `_serialize_doc`: on a dict whose keys are
unique and do not contain both `_id` and `id`, the loop is exactly an
entrywise map of `serializeEntrySpec`. -/
theorem serialize_doc_eq_map {doc : Doc} (hnodup : (keys doc).Nodup)
    (hnotboth : ¬("_id" ∈ keys doc ∧ "id" ∈ keys doc)) :
    serialize_doc doc = doc.map serializeEntrySpec := by
  have hmapped : (doc.map (fun kv => (serializeEntrySpec kv).1)).Nodup := by
    have : doc.map (fun kv => (serializeEntrySpec kv).1) =
        (keys doc).map (fun k => if k = "_id" then "id" else k) := by
      simp only [keys, List.map_map]
      exact List.map_congr_left (fun kv _ => serializeEntrySpec_fst kv)
    rw [this]
    refine List.Nodup.map_on ?_ hnodup
    intro x hx y hy hxy
    by_cases hx' : x = "_id" <;> by_cases hy' : y = "_id"
    · rw [hx', hy']
    · rw [if_pos hx', if_neg hy'] at hxy
      exact absurd ⟨hx' ▸ hx, hxy ▸ hy⟩ hnotboth
    · rw [if_neg hx', if_pos hy'] at hxy
      exact absurd ⟨hy' ▸ hy, hxy ▸ hx⟩ hnotboth
    · rwa [if_neg hx', if_neg hy'] at hxy
  have := foldl_serializeStep_fresh doc [] (by intro kv _ h; simp [keys] at h)
    hmapped
  simpa [serialize_doc] using this

theorem exists_binding_of_mem_keys {doc : Doc} {s : String}
    (h : s ∈ keys doc) : ∃ v, (s, v) ∈ doc := by
  simp only [keys, List.mem_map] at h
  rcases h with ⟨⟨k, v⟩, hm, hk⟩
  exact ⟨v, hk ▸ hm⟩

theorem length_foldl_serializeStep_collision (doc : Doc) :
    ∀ out : Doc, "_id" ∈ keys doc → "id" ∈ keys doc →
      (doc.foldl serializeStep out).length < out.length + doc.length := by
  induction doc with
  | nil => intro out h _; simp [keys] at h
  | cons kv rest ih =>
    intro out h1 h2
    rcases kv with ⟨k, v⟩
    rw [List.foldl_cons]
    by_cases hk : k = "_id"
    · -- the head writes key "id"; the other special key is still ahead
      have h2' : "id" ∈ keys rest := by
        simp only [keys, List.map_cons, List.mem_cons] at h2
        rcases h2 with h2 | h2
        · exact absurd (h2.trans hk) (by decide)
        · exact h2
      rcases exists_binding_of_mem_keys h2' with ⟨v', hv'⟩
      have hidmem : "id" ∈ keys (serializeStep out (k, v)) := by
        rw [serializeStep_eq]
        have : (serializeEntrySpec (k, v)).1 = "id" := by
          rw [serializeEntrySpec_fst]; simp [hk]
        rw [← this]
        by_cases hmem : (serializeEntrySpec (k, v)).1 ∈ keys out
        · rw [keys_dictSet_of_mem _ hmem]; exact hmem
        · rw [dictSet_of_not_mem _ hmem]
          simp [keys]
      have hwit : (serializeEntrySpec ("id", v')).1 ∈
          keys (serializeStep out (k, v)) := by
        have : (serializeEntrySpec ("id", v')).1 = "id" := by
          rw [serializeEntrySpec_fst]; simp
        rw [this]; exact hidmem
      have hlt := length_foldl_serializeStep_lt rest (serializeStep out (k, v))
        ⟨("id", v'), hv', hwit⟩
      have hle : (serializeStep out (k, v)).length ≤ out.length + 1 := by
        rw [serializeStep_eq]; exact length_dictSet_le _ _ _
      calc (rest.foldl serializeStep (serializeStep out (k, v))).length
          < (serializeStep out (k, v)).length + rest.length := hlt
        _ ≤ (out.length + 1) + rest.length := by omega
        _ = out.length + ((k, v) :: rest).length := by
            simp only [List.length_cons]; omega
    · by_cases hk2 : k = "id"
      · -- the head writes key "id"; "_id" is still ahead
        have h1' : "_id" ∈ keys rest := by
          simp only [keys, List.map_cons, List.mem_cons] at h1
          rcases h1 with h1 | h1
          · exact absurd (h1.trans hk2) (by decide)
          · exact h1
        rcases exists_binding_of_mem_keys h1' with ⟨v', hv'⟩
        have hidmem : "id" ∈ keys (serializeStep out (k, v)) := by
          rw [serializeStep_eq]
          have : (serializeEntrySpec (k, v)).1 = "id" := by
            rw [serializeEntrySpec_fst]; simp [hk, hk2]
          rw [← this]
          by_cases hmem : (serializeEntrySpec (k, v)).1 ∈ keys out
          · rw [keys_dictSet_of_mem _ hmem]; exact hmem
          · rw [dictSet_of_not_mem _ hmem]
            simp [keys]
        have hwit : (serializeEntrySpec ("_id", v')).1 ∈
            keys (serializeStep out (k, v)) := by
          have : (serializeEntrySpec ("_id", v')).1 = "id" := by
            rw [serializeEntrySpec_fst]; simp
          rw [this]; exact hidmem
        have hlt := length_foldl_serializeStep_lt rest (serializeStep out (k, v))
          ⟨("_id", v'), hv', hwit⟩
        have hle : (serializeStep out (k, v)).length ≤ out.length + 1 := by
          rw [serializeStep_eq]; exact length_dictSet_le _ _ _
        calc (rest.foldl serializeStep (serializeStep out (k, v))).length
            < (serializeStep out (k, v)).length + rest.length := hlt
          _ ≤ (out.length + 1) + rest.length := by omega
          _ = out.length + ((k, v) :: rest).length := by
              simp only [List.length_cons]; omega
      · -- an ordinary key: both special keys are ahead, use the IH
        have h1' : "_id" ∈ keys rest := by
          simp only [keys, List.map_cons, List.mem_cons] at h1
          rcases h1 with h1 | h1
          · exact absurd h1.symm hk
          · exact h1
        have h2' : "id" ∈ keys rest := by
          simp only [keys, List.map_cons, List.mem_cons] at h2
          rcases h2 with h2 | h2
          · exact absurd h2.symm hk2
          · exact h2
        have hlt := ih (serializeStep out (k, v)) h1' h2'
        have hle : (serializeStep out (k, v)).length ≤ out.length + 1 := by
          rw [serializeStep_eq]; exact length_dictSet_le _ _ _
        calc (rest.foldl serializeStep (serializeStep out (k, v))).length
            < (serializeStep out (k, v)).length + rest.length := hlt
          _ ≤ (out.length + 1) + rest.length := by omega
          _ = out.length + ((k, v) :: rest).length := by
              simp only [List.length_cons]; omega

/-! ### Claims about the serialization layer -/

/-- Claim C1, amended: serialization (being a total function) never
raises, and for every record whose keys are unique and do not contain
both `_id` and `id` at once, the output is the entrywise image of the
input: `_id` is renamed to `id` with its value stringified, a
datetime-typed value is rendered as its ISO-8601 string under its
original key, and every other binding passes through unchanged.  (The
claim as frozen, quantified over all finite mappings, fails when both
`_id` and `id` are present — see the counterexample.) -/
theorem serialize_doc_entrywise (doc : Doc) (hnodup : (keys doc).Nodup)
    (hnotboth : ¬("_id" ∈ keys doc ∧ "id" ∈ keys doc)) :
    serialize_doc doc = doc.map serializeEntrySpec ∧
    (∀ v : Value, ("_id", v) ∈ doc →
      ("id", Value.vStr (pystr v)) ∈ serialize_doc doc) ∧
    (∀ (k : String) (dt : Datetime), (k, Value.vDatetime dt) ∈ doc →
      k ≠ "_id" → (k, Value.vStr dt.isoformat) ∈ serialize_doc doc) ∧
    (∀ (k : String) (v : Value), (k, v) ∈ doc → k ≠ "_id" →
      (∀ dt, v ≠ Value.vDatetime dt) → (k, v) ∈ serialize_doc doc) := by
  have hmap := serialize_doc_eq_map hnodup hnotboth
  refine ⟨hmap, ?_, ?_, ?_⟩
  · intro v hm
    rw [hmap]
    refine List.mem_map.mpr ⟨("_id", v), hm, ?_⟩
    simp [serializeEntrySpec]
  · intro k dt hm hk
    rw [hmap]
    refine List.mem_map.mpr ⟨(k, Value.vDatetime dt), hm, ?_⟩
    simp [serializeEntrySpec, hk]
  · intro k v hm hk hv
    rw [hmap]
    refine List.mem_map.mpr ⟨(k, v), hm, ?_⟩
    cases v <;> simp [serializeEntrySpec, hk]
    exact absurd rfl (hv _)

/-- Witness for C1's theorem at a record with the identifier field, a
timestamp field and an ordinary field. -/
theorem serialize_doc_entrywise_witness :
    serialize_doc
        [("_id", Value.vObjectId "64ff00"),
         ("created_at", Value.vDatetime ⟨2024, 1, 2, 3, 4, 5⟩),
         ("name", Value.vStr "Amine")] =
      [("_id", Value.vObjectId "64ff00"),
       ("created_at", Value.vDatetime ⟨2024, 1, 2, 3, 4, 5⟩),
       ("name", Value.vStr "Amine")].map serializeEntrySpec :=
  (serialize_doc_entrywise
    [("_id", Value.vObjectId "64ff00"),
     ("created_at", Value.vDatetime ⟨2024, 1, 2, 3, 4, 5⟩),
     ("name", Value.vStr "Amine")] (by decide) (by decide)).1

/-- Counterexample to claim C1 as frozen: on the record
`[_id ↦ 1, id ↦ "x"]` the two keys collide on the output key `id`; the
stringified identifier `"1"` is absent from the output, the `id`
binding did not pass through alongside it, and the output is shorter
than the input. -/
theorem serialize_doc_id_collision_cex :
    serialize_doc [("_id", Value.vInt 1), ("id", Value.vStr "x")] =
      [("id", Value.vStr "x")] ∧
    ("id", Value.vStr (pystr (Value.vInt 1))) ∉
      serialize_doc [("_id", Value.vInt 1), ("id", Value.vStr "x")] ∧
    (serialize_doc [("_id", Value.vInt 1), ("id", Value.vStr "x")]).length <
      ([("_id", Value.vInt 1), ("id", Value.vStr "x")] : Doc).length := by
  decide

/-- Claim C10: the serializer's output never contains the key `_id`;
and on an input containing both a `_id` and an `id` key the two
collide on the single output key `id`, so the output has strictly
fewer entries than the input. -/
theorem serialize_doc_drops_underscore_id (doc : Doc) :
    "_id" ∉ keys (serialize_doc doc) ∧
    ("_id" ∈ keys doc → "id" ∈ keys doc →
      (serialize_doc doc).length < doc.length) := by
  constructor
  · exact foldl_serializeStep_no_underscore_id doc [] (by simp [keys])
  · intro h1 h2
    have h := length_foldl_serializeStep_collision doc [] h1 h2
    simpa [serialize_doc] using h

/-- Witness for C10's theorem at the two-key record `[_id ↦ 1, id ↦ "x"]`. -/
theorem serialize_doc_drops_underscore_id_witness :
    "_id" ∉ keys (serialize_doc [("_id", Value.vInt 1), ("id", Value.vStr "x")]) ∧
    (serialize_doc [("_id", Value.vInt 1), ("id", Value.vStr "x")]).length <
      ([("_id", Value.vInt 1), ("id", Value.vStr "x")] : Doc).length :=
  ⟨(serialize_doc_drops_underscore_id _).1,
   (serialize_doc_drops_underscore_id _).2 (by decide) (by decide)⟩

/-! ### The code-point ordering used by the listing sort -/

theorem charListLe_cons_iff (x y : Char) (as bs : List Char) :
    charListLe (x :: as) (y :: bs) = true ↔
      (x.toNat < y.toNat ∨ (x.toNat = y.toNat ∧ charListLe as bs = true)) := by
  rcases Nat.lt_trichotomy x.toNat y.toNat with h | h | h
  · simp [charListLe, h]
  · have h1 : ¬ x.toNat < y.toNat := by omega
    have h2 : ¬ y.toNat < x.toNat := by omega
    simp [charListLe, h1, h2, h]
  · have h1 : ¬ x.toNat < y.toNat := by omega
    have h2 : y.toNat < x.toNat := h
    simp only [charListLe, if_neg h1, if_pos h2]
    constructor
    · intro hf; exact absurd hf (by decide)
    · rintro (hlt | ⟨heq, _⟩) <;> omega

theorem charListLe_refl : ∀ a : List Char, charListLe a a = true
  | [] => rfl
  | x :: as => by
    simp only [charListLe, Nat.lt_irrefl, if_false]
    exact charListLe_refl as

theorem charListLe_total : ∀ a b : List Char,
    charListLe a b = true ∨ charListLe b a = true
  | [], _ => Or.inl rfl
  | _ :: _, [] => Or.inr rfl
  | x :: as, y :: bs => by
    rcases Nat.lt_trichotomy x.toNat y.toNat with h | h | h
    · exact Or.inl ((charListLe_cons_iff ..).mpr (Or.inl h))
    · rcases charListLe_total as bs with h' | h'
      · exact Or.inl ((charListLe_cons_iff ..).mpr (Or.inr ⟨h, h'⟩))
      · exact Or.inr ((charListLe_cons_iff ..).mpr (Or.inr ⟨h.symm, h'⟩))
    · exact Or.inr ((charListLe_cons_iff ..).mpr (Or.inl h))

theorem charListLe_trans : ∀ a b c : List Char,
    charListLe a b = true → charListLe b c = true → charListLe a c = true
  | [], _, _, _, _ => rfl
  | _ :: _, [], _, h1, _ => by simp [charListLe] at h1
  | _ :: _, _ :: _, [], _, h2 => by simp [charListLe] at h2
  | x :: as, y :: bs, z :: cs, h1, h2 => by
    rcases (charListLe_cons_iff ..).mp h1 with h | ⟨he, hr⟩ <;>
      rcases (charListLe_cons_iff ..).mp h2 with h' | ⟨he', hr'⟩ <;>
      apply (charListLe_cons_iff ..).mpr
    · exact Or.inl (Nat.lt_trans h h')
    · exact Or.inl (he' ▸ h)
    · exact Or.inl (he ▸ h')
    · exact Or.inr ⟨he.trans he', charListLe_trans as bs cs hr hr'⟩

theorem charListLe_nil_right : ∀ {a : List Char},
    charListLe a [] = true → a = []
  | [], _ => rfl
  | _ :: _, h => by simp [charListLe] at h

theorem strLeB_empty_right {s : String} (h : strLeB s "" = true) : s = "" := by
  have hd : s.data = [] := charListLe_nil_right h
  cases s
  simp only [String.data] at hd
  rw [hd]

theorem descBefore_total : ∀ a b : Doc, descBefore a b ∨ descBefore b a :=
  fun a b => (charListLe_total (sortKey b).data (sortKey a).data).imp id id

theorem descBefore_trans : ∀ a b c : Doc,
    descBefore a b → descBefore b c → descBefore a c :=
  fun _ _ _ h1 h2 => charListLe_trans _ _ _ h2 h1

theorem descBefore_of_sortKey_eq {a b : Doc} (h : sortKey a = sortKey b) :
    descBefore a b := by
  unfold descBefore strLeB
  rw [h]
  exact charListLe_refl _

theorem sortKey_of_none {d : Doc} (h : dictGet d "created_at" = none) :
    sortKey d = "" := by
  simp [sortKey, h]

theorem sortKey_of_str {d : Doc} {s : String}
    (h : dictGet d "created_at" = some (Value.vStr s)) : sortKey d = s := by
  simp [sortKey, h]

/-! ### Claims about the booking list ordering -/

/-- Claim C2, amended: for every store read result, the booking list
operation returns the serialized records sorted by `created_at`
descending with a missing key ordered as the empty/minimum string; the
output is a permutation of the serialized input, the ordering is stable
(equal keys keep their input order) and total — it never errors on a
missing key; and every record missing `created_at` appears after every
record whose `created_at` is a nonempty string.  (The frozen claim's
stronger consequence — after every record that has the key at all —
fails when a present `created_at` equals the empty string and ties with
a missing one: see the counterexample.) -/
theorem list_bookings_sorted_desc (docs : List Doc)
    (hstr : ∀ d ∈ docs, createdAtStringlyB (serialize_doc d) = true) :
    list_bookings (.ok docs) =
      .ok ⟨pySortDesc (docs.map serialize_doc),
           (pySortDesc (docs.map serialize_doc)).length⟩ ∧
    (pySortDesc (docs.map serialize_doc)).Perm (docs.map serialize_doc) ∧
    List.Pairwise descBefore (pySortDesc (docs.map serialize_doc)) ∧
    (∀ a b : Doc, sortKey a = sortKey b →
      [a, b].Sublist (docs.map serialize_doc) →
      [a, b].Sublist (pySortDesc (docs.map serialize_doc))) ∧
    (∀ i j : Fin (pySortDesc (docs.map serialize_doc)).length,
      dictGet ((pySortDesc (docs.map serialize_doc)).get i) "created_at" = none →
      (∃ s, dictGet ((pySortDesc (docs.map serialize_doc)).get j) "created_at" =
          some (Value.vStr s) ∧ s ≠ "") →
      (j : Nat) < (i : Nat)) := by
  haveI : IsTotal Doc descBefore := ⟨descBefore_total⟩
  haveI : IsTrans Doc descBefore := ⟨fun a b c => descBefore_trans a b c⟩
  refine ⟨rfl, List.perm_insertionSort descBefore _,
    List.sorted_insertionSort descBefore _, ?_, ?_⟩
  · intro a b hk hsub
    exact List.pair_sublist_insertionSort (descBefore_of_sortKey_eq hk) hsub
  · intro i j hnone hsome
    rcases hsome with ⟨s, hs, hsne⟩
    have hp : List.Pairwise descBefore (pySortDesc (docs.map serialize_doc)) :=
      List.sorted_insertionSort descBefore _
    by_contra hcon
    have hle : (i : Nat) ≤ (j : Nat) := Nat.not_lt.mp hcon
    rcases Nat.eq_or_lt_of_le hle with heq | hlt
    · have hij : i = j := Fin.ext heq
      rw [hij, hs] at hnone
      cases hnone
    · have hr := List.pairwise_iff_get.mp hp i j hlt
      unfold descBefore at hr
      rw [sortKey_of_none hnone, sortKey_of_str hs] at hr
      exact hsne (strLeB_empty_right hr)

/-- Witness for C2's theorem on a concrete store read containing
timestamped and malformed records: the sorted output is pairwise
descending. -/
theorem list_bookings_sorted_desc_witness :
    List.Pairwise descBefore
      (pySortDesc ([[("created_at", Value.vStr "2024-01-01T10:00:00")],
        [("name", Value.vStr "noTimestamp")],
        [("created_at", Value.vStr "2025-06-06T09:30:00")]].map serialize_doc)) :=
  (list_bookings_sorted_desc
    [[("created_at", Value.vStr "2024-01-01T10:00:00")],
     [("name", Value.vStr "noTimestamp")],
     [("created_at", Value.vStr "2025-06-06T09:30:00")]] (by decide)).2.2.1

/-- Counterexample to claim C2 as frozen: with one record missing
`created_at` first and one whose `created_at` IS the empty string
second, both sort keys are the minimum string, the stable sort keeps
the input order, and the record missing `created_at` appears BEFORE a
record that has it. -/
theorem list_bookings_sorted_desc_cex :
    pySortDesc ([([] : Doc), [("created_at", Value.vStr "")]].map serialize_doc) =
      [([] : Doc), [("created_at", Value.vStr "")]] ∧
    dictGet ([] : Doc) "created_at" = none ∧
    dictGet [("created_at", Value.vStr "")] "created_at" =
      some (Value.vStr "") := by
  decide

/-! ### The booking pipeline -/

theorem serializeEntrySpec_oid (oid : String) :
    serializeEntrySpec ("_id", Value.vObjectId oid) = ("id", Value.vStr oid) := by
  simp [serializeEntrySpec, pystr]

theorem serializeEntrySpec_vStr (k : String) (s : String) (hk : k ≠ "_id") :
    serializeEntrySpec (k, Value.vStr s) = (k, Value.vStr s) := by
  simp [serializeEntrySpec, hk]

theorem serializeEntrySpec_optV (k : String) (o : Option String)
    (hk : k ≠ "_id") : serializeEntrySpec (k, optV o) = (k, optV o) := by
  cases o <;> simp [serializeEntrySpec, optV, hk]

theorem serializeEntrySpec_dt (k : String) (dt : Datetime) (hk : k ≠ "_id") :
    serializeEntrySpec (k, Value.vDatetime dt) = (k, Value.vStr dt.isoformat) := by
  simp [serializeEntrySpec, hk]

/-- The serialized form of a stored booking document: `_id` becomes a
string `id`, the timestamp becomes its ISO string, the booking fields
pass through. -/
theorem serialize_bookingToDoc (b : Booking) (oid : String) (ts : Datetime) :
    serialize_doc (bookingToDoc b oid ts) =
      [("id", Value.vStr oid), ("name", Value.vStr b.name),
       ("phone", Value.vStr b.phone), ("email", optV b.email),
       ("service", Value.vStr b.service),
       ("preferred_date", optV b.preferred_date),
       ("preferred_time", optV b.preferred_time), ("notes", optV b.notes),
       ("created_at", Value.vStr ts.isoformat)] := by
  have hkeys : keys (bookingToDoc b oid ts) =
      ["_id", "name", "phone", "email", "service", "preferred_date",
       "preferred_time", "notes", "created_at"] := rfl
  rw [serialize_doc_eq_map (by rw [hkeys]; decide) (by rw [hkeys]; decide)]
  simp only [bookingToDoc, List.map_cons, List.map_nil]
  rw [serializeEntrySpec_oid,
    serializeEntrySpec_vStr _ _ (by decide),
    serializeEntrySpec_vStr _ _ (by decide),
    serializeEntrySpec_optV _ _ (by decide),
    serializeEntrySpec_vStr _ _ (by decide),
    serializeEntrySpec_optV _ _ (by decide),
    serializeEntrySpec_optV _ _ (by decide),
    serializeEntrySpec_optV _ _ (by decide),
    serializeEntrySpec_dt _ _ (by decide)]

/-- Claim C3: whichever step of booking creation fails — dependency
import, canonical-schema validation, or the store write — the operation
fails with an HTTP error of status 500 whose detail is exactly the
underlying exception's message; and every error the operation can
produce has status 500 (the two failure kinds are not distinguished).
Being a total function into `Except`, nothing else escapes. -/
theorem create_booking_error_path
    (deps : Except String ((Doc → Except String Booking) ×
      (Booking → Except String String))) (payload : BookingIn) :
    (∀ m, deps = .error m →
      create_booking deps payload = .error ⟨500, m⟩) ∧
    (∀ v i m, deps = .ok (v, i) → v (model_dump payload) = .error m →
      create_booking deps payload = .error ⟨500, m⟩) ∧
    (∀ v i b m, deps = .ok (v, i) → v (model_dump payload) = .ok b →
      i b = .error m → create_booking deps payload = .error ⟨500, m⟩) ∧
    (∀ e, create_booking deps payload = .error e → e.status = 500) := by
  refine ⟨?_, ?_, ?_, ?_⟩
  · intro m h; subst h; rfl
  · intro v i m h hv; subst h; simp [create_booking, hv]
  · intro v i b m h hv hi; subst h; simp [create_booking, hv, hi]
  · intro e h
    rcases deps with m | ⟨v, i⟩
    · simp only [create_booking, Except.error.injEq] at h
      subst h; rfl
    · rcases hv : v (model_dump payload) with m | b
      · simp only [create_booking, hv, Except.error.injEq] at h
        subst h; rfl
      · rcases hi : i b with m | okid
        · simp only [create_booking, hv, hi, Except.error.injEq] at h
          subst h; rfl
        · simp [create_booking, hv, hi] at h

/-- Witness for C3's theorem: a failed dependency import surfaces as a
500 whose detail is the underlying message. -/
theorem create_booking_error_path_witness :
    create_booking (Except.error "No module named database")
        ⟨"Amine", "0612345678", none, "cut", none, none, none⟩ =
      .error ⟨500, "No module named database"⟩ :=
  (create_booking_error_path (Except.error "No module named database")
    ⟨"Amine", "0612345678", none, "cut", none, none, none⟩).1
    "No module named database" rfl

/-- Claim C4: when canonical validation succeeds and the store write
succeeds, `create_booking` returns status "ok" together with exactly
the store-assigned identifier; under the spec-modelled store contract
that assigned identifiers are non-empty, that identifier is a non-empty
string. -/
theorem create_booking_success (validateB : Doc → Except String Booking)
    (insert : Booking → Except String String) (payload : BookingIn)
    (b : Booking) (oid : String)
    (hstore : ∀ b' i, insert b' = .ok i → i ≠ "")
    (hval : validateB (model_dump payload) = .ok b)
    (hins : insert b = .ok oid) :
    create_booking (.ok (validateB, insert)) payload = .ok ⟨"ok", oid⟩ ∧
    oid ≠ "" := by
  constructor
  · simp [create_booking, hval, hins]
  · exact hstore b oid hins

/-- Witness for C4's theorem with a concrete validator and store. -/
theorem create_booking_success_witness :
    create_booking
        (.ok (fun _ => .ok (⟨"Amine", "0612345678", none, "cut",
                none, none, none⟩ : Booking),
              fun _ => .ok "66f1a2b3c4d5e6f7a8b9c0d1"))
        ⟨"Amine", "0612345678", none, "cut", none, none, none⟩ =
      .ok ⟨"ok", "66f1a2b3c4d5e6f7a8b9c0d1"⟩ ∧
    "66f1a2b3c4d5e6f7a8b9c0d1" ≠ "" :=
  create_booking_success _ _
    ⟨"Amine", "0612345678", none, "cut", none, none, none⟩
    ⟨"Amine", "0612345678", none, "cut", none, none, none⟩
    "66f1a2b3c4d5e6f7a8b9c0d1"
    (fun b' i h => by cases h; decide) rfl rfl

/-- Claim C5: round trip. After a successful `create_booking` (with a
validator that, as the canonical schema does, preserves the intake
field values), a `list_bookings` over a store read containing the
inserted document includes an item whose serialized fields match the
submitted intake fields. -/
theorem create_then_list_roundtrip (validateB : Doc → Except String Booking)
    (insert : Booking → Except String String) (payload : BookingIn)
    (b : Booking) (oid : String) (ts : Datetime) (docs : List Doc)
    (hval : validateB (model_dump payload) = .ok b)
    (hagree : b.name = payload.name ∧ b.phone = payload.phone ∧
      b.email = payload.email ∧ b.service = payload.service ∧
      b.preferred_date = payload.preferred_date ∧
      b.preferred_time = payload.preferred_time ∧ b.notes = payload.notes)
    (hins : insert b = .ok oid)
    (hmem : bookingToDoc b oid ts ∈ docs) :
    create_booking (.ok (validateB, insert)) payload = .ok ⟨"ok", oid⟩ ∧
    ∃ resp, list_bookings (.ok docs) = .ok resp ∧
      ∃ item ∈ resp.items,
        dictGet item "name" = some (Value.vStr payload.name) ∧
        dictGet item "phone" = some (Value.vStr payload.phone) ∧
        dictGet item "email" = some (optV payload.email) ∧
        dictGet item "service" = some (Value.vStr payload.service) ∧
        dictGet item "preferred_date" = some (optV payload.preferred_date) ∧
        dictGet item "preferred_time" = some (optV payload.preferred_time) ∧
        dictGet item "notes" = some (optV payload.notes) := by
  constructor
  · simp [create_booking, hval, hins]
  · refine ⟨⟨pySortDesc (docs.map serialize_doc),
      (pySortDesc (docs.map serialize_doc)).length⟩, rfl,
      serialize_doc (bookingToDoc b oid ts), ?_, ?_⟩
    · exact (List.mem_insertionSort _).mpr (List.mem_map_of_mem _ hmem)
    · obtain ⟨h1, h2, h3, h4, h5, h6, h7⟩ := hagree
      rw [serialize_bookingToDoc, h1, h2, h3, h4, h5, h6, h7]
      refine ⟨?_, ?_, ?_, ?_, ?_, ?_, ?_⟩ <;> simp [dictGet]

/-- Witness for C5's theorem: one inserted booking, read back and found
with matching fields. -/
theorem create_then_list_roundtrip_witness :
    create_booking
        (.ok (fun _ => .ok (⟨"Amine", "0612345678", none, "cut",
                none, none, none⟩ : Booking),
              fun _ => .ok "66aa"))
        ⟨"Amine", "0612345678", none, "cut", none, none, none⟩ =
      .ok ⟨"ok", "66aa"⟩ ∧
    ∃ resp, list_bookings
        (.ok [bookingToDoc
          ⟨"Amine", "0612345678", none, "cut", none, none, none⟩
          "66aa" ⟨2024, 1, 2, 3, 4, 5⟩]) = .ok resp ∧
      ∃ item ∈ resp.items,
        dictGet item "name" = some (Value.vStr "Amine") ∧
        dictGet item "phone" = some (Value.vStr "0612345678") ∧
        dictGet item "email" = some (optV none) ∧
        dictGet item "service" = some (Value.vStr "cut") ∧
        dictGet item "preferred_date" = some (optV none) ∧
        dictGet item "preferred_time" = some (optV none) ∧
        dictGet item "notes" = some (optV none) :=
  create_then_list_roundtrip _ _
    ⟨"Amine", "0612345678", none, "cut", none, none, none⟩
    ⟨"Amine", "0612345678", none, "cut", none, none, none⟩
    "66aa" ⟨2024, 1, 2, 3, 4, 5⟩ _
    rfl ⟨rfl, rfl, rfl, rfl, rfl, rfl, rfl⟩ rfl (List.mem_cons_self _ _)

/-- Claim C8: the record `create_booking` passes to the canonical
schema is `payload.model_dump()`, built from exactly the seven
`BookingIn` fields; since intake parsing ignores unknown keys, no
client-supplied `created_at` — even one present in the inbound JSON —
reaches the dumped record handed to persistence. -/
theorem model_dump_no_created_at (raw : Doc) (p : BookingIn)
    (hparse : parseBookingIn raw = .ok p) :
    keys (model_dump p) =
      ["name", "phone", "email", "service", "preferred_date",
       "preferred_time", "notes"] ∧
    "created_at" ∉ keys (model_dump p) := by
  refine ⟨rfl, ?_⟩
  show "created_at" ∉ ["name", "phone", "email", "service",
    "preferred_date", "preferred_time", "notes"]
  decide

/-- Witness for C8's theorem: an inbound payload that does contain a
`created_at` key parses, and the dumped record still lacks it. -/
theorem model_dump_no_created_at_witness :
    keys (model_dump ⟨"Amine", "0612345678", none, "cut",
        none, none, none⟩) =
      ["name", "phone", "email", "service", "preferred_date",
       "preferred_time", "notes"] ∧
    "created_at" ∉ keys (model_dump
      (⟨"Amine", "0612345678", none, "cut", none, none, none⟩ : BookingIn)) :=
  model_dump_no_created_at
    [("name", Value.vStr "Amine"), ("phone", Value.vStr "0612345678"),
     ("service", Value.vStr "cut"),
     ("created_at", Value.vStr "2030-01-01T00:00:00")]
    ⟨"Amine", "0612345678", none, "cut", none, none, none⟩ rfl

/-! ### Claims about the diagnostics endpoint and the static catalog -/

/-- Claim C6: the diagnostics operation is total over every collaborator
outcome (import error, other import failure, absent handle, failing or
succeeding collection query) — it never raises, its response always
reports the backend as running, and it carries at most 10 collection
names.  The response type carries exactly the six status keys
(`backend`, `database`, `database_url`, `database_name`,
`connection_status`, `collections`). -/
theorem test_database_never_raises (imp : DbImport) (urlSet nameSet : Bool) :
    (test_database imp urlSet nameSet).backend = "✅ Running" ∧
    (test_database imp urlSet nameSet).collections.length ≤ 10 := by
  rcases imp with m | m | db
  · exact ⟨rfl, by show ([] : List String).length ≤ 10; decide⟩
  · exact ⟨rfl, by show ([] : List String).length ≤ 10; decide⟩
  · rcases db with _ | db
    · exact ⟨rfl, by show ([] : List String).length ≤ 10; decide⟩
    · rcases db with ⟨nm, cols⟩
      rcases cols with e | cols
      · exact ⟨rfl, by show ([] : List String).length ≤ 10; decide⟩
      · refine ⟨rfl, ?_⟩
        show (cols.take 10).length ≤ 10
        rw [List.length_take]
        exact min_le_left _ _

/-- Claim C7: in the final diagnostics response the `database_url` and
`database_name` fields are presence masks: each is exactly one of the
two indicator strings, determined solely by whether the corresponding
environment variable is set; two runs differing only in the database
handle's state (including its literal name) agree on both fields, so
the literal database name never reaches them. -/
theorem test_database_presence_mask (imp imp' : DbImport)
    (urlSet nameSet : Bool) :
    ((test_database imp urlSet nameSet).database_url =
      some (if urlSet then "✅ Set" else "❌ Not Set")) ∧
    ((test_database imp urlSet nameSet).database_name =
      some (if nameSet then "✅ Set" else "❌ Not Set")) ∧
    (test_database imp urlSet nameSet).database_url =
      (test_database imp' urlSet nameSet).database_url ∧
    (test_database imp urlSet nameSet).database_name =
      (test_database imp' urlSet nameSet).database_name :=
  ⟨rfl, rfl, rfl, rfl⟩

/-- Claim C9: the services catalog is a fixed constant of exactly 4
entries (each a `Service` with id/name/price/duration/desc), including
the skin-fade entry with id "fade", price 140 and duration 45. -/
theorem list_services_fixed :
    list_services.length = 4 ∧
    (⟨"fade", "Skin Fade", 140, 45,
      "Sharp fade with detailed finish."⟩ : Service) ∈ list_services := by
  decide

end Barber
